import Mathlib

/-!
Verification development for the `mlp-gluon` notebook
(`chapter03_deep-neural-networks/mlp-gluon.ipynb`).

The notebook builds a multilayer perceptron for MNIST in two ways (a
hand-written `gluon.Block` subclass `MLP`, and a `gluon.nn.Sequential`
stack), wires a softmax cross-entropy loss and an SGD optimizer, and runs
a manual training loop printing per-epoch loss and accuracies.

We shallow-embed the orchestration code over an arbitrary linear ordered
field `α` (instantiated at `ℚ` for concrete evaluation).  Vectors are
`List α`, matrices are `List (List α)` (one row per output unit, as in
`mxnet`'s `Dense`, which computes `x·Wᵀ + b` for `W : (units, in_units)`).
Framework pieces the repository only calls (automatic differentiation, the
loss kernel, the parameter initializer, the shuffling dataloader) are
either abstracted as function parameters or modelled from the spec, as
noted on each definition.
-/

section Defs

variable {α : Type} [LinearOrderedField α]

/-- Hard-coded constant from the notebook: `batch_size = 64`. -/
def batch_size : ℕ := 64

/-- Hard-coded constant from the notebook: `num_inputs = 784`. -/
def num_inputs : ℕ := 784

/-- Hard-coded constant from the notebook: `num_outputs = 10`. -/
def num_outputs : ℕ := 10

/-- Hard-coded constant from the notebook: `num_examples = 60000`. -/
def num_examples : ℕ := 60000

/-- Hard-coded constant from the notebook: `num_hidden = 64`. -/
def num_hidden : ℕ := 64

/-- Hard-coded constant from the notebook: `epochs = 10`. -/
def epochs : ℕ := 10

/-- Hard-coded constant from the notebook: the `'learning_rate': .01`
passed to `gluon.Trainer`. -/
def learning_rate : α := 1 / 100

/-- Dot product of a weight row with an input vector. -/
def dotProd (w x : List α) : α := ((w.zip x).map fun q => q.1 * q.2).sum

/-- One `gluon.nn.Dense` affine map: row `j` of the output is
`⟨W[j], x⟩ + b[j]`. -/
def dense (W : List (List α)) (b : List α) (x : List α) : List α :=
  (W.zip b).map fun wb => dotProd wb.1 x + wb.2

/-- `nd.relu`: pointwise rectified linear unit. -/
def relu (v : α) : α := max v 0

/-- `nd.relu` applied to a vector. -/
def reluVec (x : List α) : List α := x.map relu

/-- The parameters owned by the three `Dense` layers of the notebook's
network: weight matrix and bias vector for `dense0`, `dense1`, `dense2`. -/
structure MLPParams (α : Type) where
  w0 : List (List α)
  b0 : List α
  w1 : List (List α)
  b1 : List α
  w2 : List (List α)
  b2 : List α

/-- `MLP.forward` from the notebook's `gluon.Block` subclass:
`x = nd.relu(self.dense0(x)); x = nd.relu(self.dense1(x));
x = self.dense2(x); return x`. -/
def MLP.forward (p : MLPParams α) (x : List α) : List α :=
  dense p.w2 p.b2 (reluVec (dense p.w1 p.b1 (reluVec (dense p.w0 p.b0 x))))

/-- One layer of a `gluon.nn.Sequential` stack: a `Dense` with an optional
`activation="relu"`. -/
structure DenseLayer (α : Type) where
  W : List (List α)
  b : List α
  act : Bool

/-- Applying one `Dense` layer: the affine map followed by the relu
activation when the layer was built with `activation="relu"`. -/
def DenseLayer.apply (l : DenseLayer α) (x : List α) : List α :=
  cond l.act (reluVec (dense l.W l.b x)) (dense l.W l.b x)

/-- `gluon.nn.Sequential` forward: feed the input through the layers bottom
to top. -/
def Sequential.forward (layers : List (DenseLayer α)) (x : List α) : List α :=
  layers.foldl (fun y l => l.apply y) x

/-- The layer stack built in the notebook:
`net.add(Dense(num_hidden, activation="relu"))` twice, then
`net.add(Dense(num_outputs))`, with the given parameter assignment. -/
def seqNet (p : MLPParams α) : List (DenseLayer α) :=
  [⟨p.w0, p.b0, true⟩, ⟨p.w1, p.b1, true⟩, ⟨p.w2, p.b2, false⟩]

/-- Batched forward pass: the network applied to each row of the batch. -/
def netBatch (p : MLPParams α) (batch : List (List α)) : List (List α) :=
  batch.map (MLP.forward p)

/-- Shape discipline of the notebook's parameters: `dense0` is 64×784,
`dense1` is 64×64, `dense2` is 10×64, with matching bias lengths. -/
def wellShaped (p : MLPParams α) : Prop :=
  p.w0.length = num_hidden ∧ (∀ r ∈ p.w0, r.length = num_inputs) ∧
  p.b0.length = num_hidden ∧
  p.w1.length = num_hidden ∧ (∀ r ∈ p.w1, r.length = num_hidden) ∧
  p.b1.length = num_hidden ∧
  p.w2.length = num_outputs ∧ (∀ r ∈ p.w2, r.length = num_hidden) ∧
  p.b2.length = num_outputs

/-- One labelled minibatch as yielded by the `DataLoader`: a list of 28×28
images and the corresponding integer labels. -/
structure Batch (α : Type) where
  imgs : List (List (List α))
  labels : List ℕ

/-- `data.reshape((-1, 784))`: flatten each image of the batch to a
length-784 row. -/
def reshape784 (imgs : List (List (List α))) : List (List α) :=
  imgs.map List.flatten

/-- Mutable state threaded through one epoch of the training loop: the
model parameters and the running `cumulative_loss`. -/
structure TrainState (α : Type) where
  params : MLPParams α
  cumLoss : α

/-- One SGD update of a bias vector, as performed by
`gluon.Trainer(..., 'sgd', learning_rate=lr)` when `trainer.step(bs)` is
called: each coordinate becomes `w - lr * (g / bs)` (the gradient is
rescaled by the batch size passed to `step`). -/
def vecUpd (lr : α) (bs : ℕ) (w g : List α) : List α :=
  (w.zip g).map fun q => q.1 - lr * (q.2 / (bs : α))

/-- SGD update of a weight matrix, row by row. -/
def matUpd (lr : α) (bs : ℕ) (W G : List (List α)) : List (List α) :=
  (W.zip G).map fun q => vecUpd lr bs q.1 q.2

/-- One `trainer.step(batch_size)`: SGD applied to every parameter of the
network with the given learning rate and batch-size rescaling. -/
def sgdStep (lr : α) (bs : ℕ) (p g : MLPParams α) : MLPParams α :=
  ⟨matUpd lr bs p.w0 g.w0, vecUpd lr bs p.b0 g.b0,
   matUpd lr bs p.w1 g.w1, vecUpd lr bs p.b1 g.b1,
   matUpd lr bs p.w2 g.w2, vecUpd lr bs p.b2 g.b2⟩

/-- The body of the inner training loop, one batch:
`data = data.reshape((-1, 784))`; `output = net(data)`;
`loss = softmax_cross_entropy(output, label)` (the loss kernel is the
abstract parameter `lossFn`); `loss.backward()` (automatic differentiation
is the abstract parameter `gradFn`, giving the gradient of the summed loss
with respect to every parameter); `trainer.step(data.shape[0])`;
`cumulative_loss += nd.sum(loss).asscalar()`. -/
def stepBatch (gradFn : MLPParams α → List (List α) → List ℕ → MLPParams α)
    (lossFn : List (List α) → List ℕ → List α)
    (s : TrainState α) (b : Batch α) : TrainState α :=
  let data := reshape784 b.imgs
  let output := netBatch s.params data
  let loss := lossFn output b.labels
  let g := gradFn s.params data b.labels
  ⟨sgdStep learning_rate data.length s.params g, s.cumLoss + loss.sum⟩

/-- One epoch of the inner loop: fold `stepBatch` over all training
batches, starting from `cumulative_loss = 0`. -/
def trainEpoch (gradFn : MLPParams α → List (List α) → List ℕ → MLPParams α)
    (lossFn : List (List α) → List ℕ → List α)
    (p : MLPParams α) (batches : List (Batch α)) : TrainState α :=
  batches.foldl (stepBatch gradFn lossFn) ⟨p, 0⟩

/-- The parameter effect of one batch in isolation: exactly one SGD step,
computed from the gradients at the pre-step parameters. -/
def paramStep (gradFn : MLPParams α → List (List α) → List ℕ → MLPParams α)
    (p : MLPParams α) (b : Batch α) : MLPParams α :=
  sgdStep learning_rate (reshape784 b.imgs).length p
    (gradFn p (reshape784 b.imgs) b.labels)

/-- The parameter effect of one epoch: the fold of the per-batch SGD steps
and nothing else. -/
def epochParams (gradFn : MLPParams α → List (List α) → List ℕ → MLPParams α)
    (p : MLPParams α) (batches : List (Batch α)) : MLPParams α :=
  batches.foldl (paramStep gradFn) p

/-- The summed per-sample loss accumulated over one epoch: for each batch,
the loss is evaluated on the forward output of the parameters current at
that batch, then the parameters advance by one SGD step. -/
def epochLoss (gradFn : MLPParams α → List (List α) → List ℕ → MLPParams α)
    (lossFn : List (List α) → List ℕ → List α)
    (p : MLPParams α) : List (Batch α) → α
  | [] => 0
  | b :: bs =>
      (lossFn (netBatch p (reshape784 b.imgs)) b.labels).sum +
        epochLoss gradFn lossFn (paramStep gradFn p b) bs

/-- The index scan behind `nd.argmax(axis=1)`: walk the list keeping the
index of the largest value seen so far, first occurrence winning ties. -/
def argmaxGo : List α → ℕ → ℕ → α → ℕ
  | [], _, bi, _ => bi
  | y :: ys, i, bi, bv =>
      if bv < y then argmaxGo ys (i + 1) i y else argmaxGo ys (i + 1) bi bv

/-- `nd.argmax` over one output row: the index of its maximal entry. -/
def argmaxIdx : List α → ℕ
  | [] => 0
  | x :: xs => argmaxGo xs 1 0 x

/-- The two counters of `mx.metric.Accuracy`: matched predictions and
total instances seen. -/
structure AccMetric where
  sumMetric : ℕ
  numInst : ℕ

/-- Number of positions where the prediction equals the label. -/
def countMatches (preds labels : List ℕ) : ℕ :=
  ((preds.zip labels).filter fun q => q.1 == q.2).length

/-- `acc.update(preds, labels)`: add the matches to `sum_metric` and the
number of samples to `num_inst`. -/
def accUpdate (m : AccMetric) (preds labels : List ℕ) : AccMetric :=
  ⟨m.sumMetric + countMatches preds labels, m.numInst + labels.length⟩

/-- The metric state after `evaluate_accuracy` has walked every batch of
the iterator: per batch it reshapes the data to `(-1, 784)`, runs the
network, takes the argmax of each output row and updates the metric. -/
def evalFold (p : MLPParams α) (batches : List (Batch α)) : AccMetric :=
  batches.foldl
    (fun m b =>
      accUpdate m ((netBatch p (reshape784 b.imgs)).map argmaxIdx) b.labels)
    ⟨0, 0⟩

/-- `evaluate_accuracy(data_iterator, net)` from the notebook: the final
value of `acc.get()[1]`, i.e. `sum_metric / num_inst`. -/
def evaluate_accuracy (batches : List (Batch α)) (p : MLPParams α) : α :=
  ((evalFold p batches).sumMetric : α) / ((evalFold p batches).numInst : α)

/-- State threaded through the outer loop over epochs: the parameters and
the list of per-epoch console records
`(epoch, cumulative_loss / num_examples, train_acc, test_acc)`. -/
structure LoopState (α : Type) where
  params : MLPParams α
  logs : List (ℕ × α × α × α)

/-- One iteration of the outer loop `for e in range(epochs)`: run the
epoch over all training batches, then
`test_accuracy = evaluate_accuracy(test_data, net)`,
`train_accuracy = evaluate_accuracy(train_data, net)`, and print
`(e, cumulative_loss / num_examples, train_accuracy, test_accuracy)`. -/
def runEpoch (gradFn : MLPParams α → List (List α) → List ℕ → MLPParams α)
    (lossFn : List (List α) → List ℕ → List α)
    (trainBatches testBatches : List (Batch α))
    (s : LoopState α) (e : ℕ) : LoopState α :=
  let t := trainEpoch gradFn lossFn s.params trainBatches
  let testAcc := evaluate_accuracy testBatches t.params
  let trainAcc := evaluate_accuracy trainBatches t.params
  ⟨t.params, s.logs ++ [(e, t.cumLoss / (num_examples : α), trainAcc, testAcc)]⟩

/-- The whole training loop: fold the epoch body over
`range(epochs)`, starting from the initial parameters and no output. -/
def trainLoop (gradFn : MLPParams α → List (List α) → List ℕ → MLPParams α)
    (lossFn : List (List α) → List ℕ → List α)
    (trainBatches testBatches : List (Batch α))
    (p0 : MLPParams α) : LoopState α :=
  (List.range epochs).foldl
    (runEpoch gradFn lossFn trainBatches testBatches) ⟨p0, []⟩

/-- The parameters at the start of epoch `k`: `k` epoch-folds of SGD steps
applied to the initial parameters. -/
def iterEpochParams (gradFn : MLPParams α → List (List α) → List ℕ → MLPParams α)
    (trainBatches : List (Batch α)) (p0 : MLPParams α) : ℕ → MLPParams α
  | 0 => p0
  | k + 1 => epochParams gradFn (iterEpochParams gradFn trainBatches p0 k) trainBatches

/-- The console record the loop prints for epoch `e`: the epoch number,
the epoch's summed loss divided by `num_examples`, and the training and
test accuracies of the post-epoch parameters. -/
def logEntry (gradFn : MLPParams α → List (List α) → List ℕ → MLPParams α)
    (lossFn : List (List α) → List ℕ → List α)
    (trainBatches testBatches : List (Batch α))
    (p0 : MLPParams α) (e : ℕ) : ℕ × α × α × α :=
  (e,
   epochLoss gradFn lossFn (iterEpochParams gradFn trainBatches p0 e) trainBatches /
     (num_examples : α),
   evaluate_accuracy trainBatches (iterEpochParams gradFn trainBatches p0 (e + 1)),
   evaluate_accuracy testBatches (iterEpochParams gradFn trainBatches p0 (e + 1)))

/-- Modelled from the spec: `gluon.loss.SoftmaxCrossEntropyLoss` is
framework code not present in the repository.  Softmax cross-entropy of
one output row against its label is `log (Σ_i exp out[i]) - out[label]`;
we take the exponential-like and logarithm-like kernels `E` and `L` as
parameters, constrained in the theorems by the properties that matter
(`E` positive, `L` monotone on positives, `L ∘ E = id`). -/
def softmax_cross_entropy (E L : α → α) (out : List α) (label : ℕ) : α :=
  L ((out.map E).sum) - out.getD label 0

/-- A concrete positive, strictly increasing exponential-like kernel on
`ℚ`, used to instantiate `softmax_cross_entropy`. -/
def qE (x : ℚ) : ℚ := if 0 ≤ x then x + 1 else 1 / (1 - x)

/-- The logarithm-like left inverse of `qE`, monotone on positives. -/
def qL (y : ℚ) : ℚ := if 1 ≤ y then y - 1 else 1 - 1 / y

/-- Modelled from the spec: the framework pseudo-random generator behind
`mx.init.Normal` is not in the repository; we model it as a linear
congruential generator advanced deterministically from the seed. -/
def lcgNext (s : ℕ) : ℕ := (1103515245 * s + 12345) % 2147483648

/-- Modelled from the spec: one pseudo-sample of the zero-mean
distribution with scale `sigma`, a deterministic function of the
generator state, together with the advanced state. -/
def normSample (sigma : ℚ) (s : ℕ) : ℚ × ℕ :=
  (sigma * (((lcgNext s : ℚ) - 1073741824) / 1073741824), lcgNext s)

/-- Draw `n` pseudo-samples in sequence, threading the generator state. -/
def sampleVec (sigma : ℚ) : ℕ → ℕ → List ℚ × ℕ
  | 0, s => ([], s)
  | n + 1, s =>
      let p := normSample sigma s
      let rest := sampleVec sigma n p.2
      (p.1 :: rest.1, rest.2)

/-- Draw an `r × c` matrix of pseudo-samples, threading the state. -/
def sampleMat (sigma : ℚ) : ℕ → ℕ → ℕ → List (List ℚ) × ℕ
  | 0, _, s => ([], s)
  | r + 1, c, s =>
      let row := sampleVec sigma c s
      let rest := sampleMat sigma r c row.2
      (row.1 :: rest.1, rest.2)

/-- Modelled from the spec:
`net.collect_params().initialize(mx.init.Normal(sigma), ctx)` draws every
weight from the zero-mean distribution using the seeded generator (biases
start at zero, the framework default); the entire result is a function of
the seed alone. -/
def initParams (sigma : ℚ) (seed : ℕ) : MLPParams ℚ :=
  let m0 := sampleMat sigma 64 784 seed
  let m1 := sampleMat sigma 64 64 m0.2
  let m2 := sampleMat sigma 10 64 m1.2
  ⟨m0.1, List.replicate 64 0, m1.1, List.replicate 64 0, m2.1, List.replicate 10 0⟩

/-- The two constructor arguments of `mx.gluon.data.DataLoader` the
notebook sets: the batch size and the shuffle flag. -/
structure DataLoaderCfg where
  batchSize : ℕ
  shuffle : Bool

/-- `train_data = DataLoader(MNIST(train=True, transform), batch_size,
shuffle=True)`. -/
def train_data : DataLoaderCfg := ⟨batch_size, true⟩

/-- `test_data = DataLoader(MNIST(train=False, transform), batch_size,
shuffle=False)`. -/
def test_data : DataLoaderCfg := ⟨batch_size, false⟩

/-- Split a sample sequence into consecutive batches of size `n`. -/
def chunkList {γ : Type} (n : ℕ) (l : List γ) : List (List γ) :=
  if h : n = 0 ∨ l.isEmpty = true then [] else l.take n :: chunkList n (l.drop n)
termination_by l.length
decreasing_by
  simp only [List.length_drop]
  push_neg at h
  have hlen : 0 < l.length := by
    rcases l with _ | ⟨x, xs⟩
    · exact absurd rfl h.2
    · simp
  omega

/-- Modelled from the spec: the batches a `DataLoader` yields in one pass.
With `shuffle=True` the samples are permuted by the loader's shuffling
(abstracted as `shuffleFn`) before batching; with `shuffle=False` they are
batched in dataset order. -/
def loaderBatches {γ : Type} (cfg : DataLoaderCfg)
    (shuffleFn : List γ → List γ) (data : List γ) : List (List γ) :=
  chunkList cfg.batchSize (cond cfg.shuffle (shuffleFn data) data)

/-- The `transform` function of the notebook:
`return data.astype(np.float32)/255, label.astype(np.float32)`. -/
def transform (data : List ℕ) (label : ℕ) : List α × α :=
  (data.map fun (v : ℕ) => (v : α) / 255, (label : α))

/-- Empty parameter record, used only to instantiate theorems at a
concrete input. -/
def emptyParams : MLPParams ℚ := ⟨[], [], [], [], [], []⟩

/-- Zero-filled parameters with the notebook's shapes, used to witness the
shape theorem. -/
def zeroParams : MLPParams ℚ :=
  ⟨List.replicate 64 (List.replicate 784 0), List.replicate 64 0,
   List.replicate 64 (List.replicate 64 0), List.replicate 64 0,
   List.replicate 10 (List.replicate 64 0), List.replicate 10 0⟩

/-- A one-row batch of 784 zeros. -/
def zeroBatch : List (List ℚ) := [List.replicate 784 0]

end Defs

section Lemmas

variable {α : Type} [LinearOrderedField α]

theorem dense_length (W : List (List α)) (b : List α) (x : List α) :
    (dense W b x).length = min W.length b.length := by
  simp [dense]

theorem MLP_forward_length (p : MLPParams α) (hw : p.w2.length = num_outputs)
    (hb : p.b2.length = num_outputs) (x : List α) :
    (MLP.forward p x).length = num_outputs := by
  simp [MLP.forward, dense_length, hw, hb]

theorem trainEpoch_aux
    (gradFn : MLPParams α → List (List α) → List ℕ → MLPParams α)
    (lossFn : List (List α) → List ℕ → List α) :
    ∀ (batches : List (Batch α)) (p : MLPParams α) (c : α),
      batches.foldl (stepBatch gradFn lossFn) ⟨p, c⟩ =
        ⟨epochParams gradFn p batches, c + epochLoss gradFn lossFn p batches⟩ := by
  intro batches
  induction batches with
  | nil => intro p c; simp [epochParams, epochLoss]
  | cons b bs ih =>
      intro p c
      have hstep : stepBatch gradFn lossFn ⟨p, c⟩ b =
          ⟨paramStep gradFn p b,
            c + (lossFn (netBatch p (reshape784 b.imgs)) b.labels).sum⟩ := rfl
      simp only [List.foldl_cons, hstep, ih, epochParams, epochLoss]
      rw [add_assoc]

/-- Decomposition of one epoch: the final parameters are the fold of one
SGD step per batch, and the cumulative loss is the sum over batches of the
summed per-sample losses, each taken at the parameters current when that
batch was processed. -/
theorem trainEpoch_spec
    (gradFn : MLPParams α → List (List α) → List ℕ → MLPParams α)
    (lossFn : List (List α) → List ℕ → List α)
    (p : MLPParams α) (batches : List (Batch α)) :
    trainEpoch gradFn lossFn p batches =
      ⟨epochParams gradFn p batches, epochLoss gradFn lossFn p batches⟩ := by
  rw [trainEpoch, trainEpoch_aux]
  rw [zero_add]

end Lemmas

section Claims

variable {α : Type} [LinearOrderedField α]

/-- C1: for every well-shaped parameter assignment and every batch of
length-784 rows, the forward pass `netBatch` (two width-64 affine+relu
layers then an affine map to 10 outputs) returns one row per input row and
each output row has length `num_outputs = 10`: the output shape is
`(batch_size, num_classes)`. -/
theorem mlp_output_shape (p : MLPParams α) (batch : List (List α))
    (hp : wellShaped p) (_hx : ∀ r ∈ batch, r.length = num_inputs) :
    (netBatch p batch).length = batch.length ∧
      ∀ r ∈ netBatch p batch, r.length = num_outputs := by
  constructor
  · simp [netBatch]
  · intro r hr
    rcases List.mem_map.mp hr with ⟨x, _, rfl⟩
    exact MLP_forward_length p hp.2.2.2.2.2.2.1 hp.2.2.2.2.2.2.2.2 x

theorem mlp_output_shape_witness :
    (netBatch zeroParams zeroBatch).length = zeroBatch.length ∧
      ∀ r ∈ netBatch zeroParams zeroBatch, r.length = num_outputs :=
  mlp_output_shape zeroParams zeroBatch
    (by
      refine ⟨?_, ?_, ?_, ?_, ?_, ?_, ?_, ?_, ?_⟩
      · exact List.length_replicate 64 _
      · intro r hr
        rw [List.eq_of_mem_replicate hr]
        exact List.length_replicate 784 _
      · exact List.length_replicate 64 _
      · exact List.length_replicate 64 _
      · intro r hr
        rw [List.eq_of_mem_replicate hr]
        exact List.length_replicate 64 _
      · exact List.length_replicate 64 _
      · exact List.length_replicate 10 _
      · intro r hr
        rw [List.eq_of_mem_replicate hr]
        exact List.length_replicate 64 _
      · exact List.length_replicate 10 _)
    (by
      intro r hr
      have hr' : r ∈ [List.replicate 784 (0 : ℚ)] := hr
      have h : r = List.replicate 784 (0 : ℚ) := List.eq_of_mem_singleton hr'
      rw [h]
      exact List.length_replicate 784 _)

/-- C2: the hand-written `MLP` block and the `Sequential` stack
`[Dense(64, relu), Dense(64, relu), Dense(10)]` compute the same function:
for every assignment of weights and biases to corresponding layers and
every input, the two forward passes agree. -/
theorem sequential_eq_mlp (p : MLPParams α) (x : List α) :
    Sequential.forward (seqNet p) x = MLP.forward p x := rfl

theorem runEpoch_spec
    (gradFn : MLPParams α → List (List α) → List ℕ → MLPParams α)
    (lossFn : List (List α) → List ℕ → List α)
    (trainBatches testBatches : List (Batch α))
    (s : LoopState α) (e : ℕ) :
    runEpoch gradFn lossFn trainBatches testBatches s e =
      ⟨epochParams gradFn s.params trainBatches,
       s.logs ++ [(e,
         epochLoss gradFn lossFn s.params trainBatches / (num_examples : α),
         evaluate_accuracy trainBatches (epochParams gradFn s.params trainBatches),
         evaluate_accuracy testBatches (epochParams gradFn s.params trainBatches))]⟩ := by
  simp only [runEpoch, trainEpoch_spec]

theorem trainLoop_aux
    (gradFn : MLPParams α → List (List α) → List ℕ → MLPParams α)
    (lossFn : List (List α) → List ℕ → List α)
    (trainBatches testBatches : List (Batch α)) (p0 : MLPParams α) :
    ∀ n : ℕ,
      (List.range n).foldl (runEpoch gradFn lossFn trainBatches testBatches) ⟨p0, []⟩ =
        ⟨iterEpochParams gradFn trainBatches p0 n,
         (List.range n).map (logEntry gradFn lossFn trainBatches testBatches p0)⟩ := by
  intro n
  induction n with
  | zero => simp [iterEpochParams]
  | succ k ih =>
      rw [List.range_succ, List.foldl_append, ih, List.foldl_cons, List.foldl_nil,
        runEpoch_spec, List.map_append]
      simp [iterEpochParams, logEntry]

end Claims

section AccuracyLemmas

variable {α : Type} [LinearOrderedField α]

theorem countMatches_le (preds labels : List ℕ) :
    countMatches preds labels ≤ labels.length := by
  calc countMatches preds labels ≤ (preds.zip labels).length :=
        List.length_filter_le _ _
    _ = preds.length ⊓ labels.length := List.length_zip preds labels
    _ ≤ labels.length := inf_le_right

theorem evalFold_aux (p : MLPParams α) :
    ∀ (batches : List (Batch α)) (m : AccMetric), m.sumMetric ≤ m.numInst →
      (batches.foldl
        (fun m b =>
          accUpdate m ((netBatch p (reshape784 b.imgs)).map argmaxIdx) b.labels)
        m).sumMetric ≤
      (batches.foldl
        (fun m b =>
          accUpdate m ((netBatch p (reshape784 b.imgs)).map argmaxIdx) b.labels)
        m).numInst := by
  intro batches
  induction batches with
  | nil => intro m hm; exact hm
  | cons b bs ih =>
      intro m hm
      refine ih _ ?_
      have := countMatches_le ((netBatch p (reshape784 b.imgs)).map argmaxIdx) b.labels
      simp only [accUpdate]
      omega

theorem evalFold_le (p : MLPParams α) (batches : List (Batch α)) :
    (evalFold p batches).sumMetric ≤ (evalFold p batches).numInst :=
  evalFold_aux p batches ⟨0, 0⟩ (le_refl 0)

theorem epochLoss_nonneg
    (gradFn : MLPParams α → List (List α) → List ℕ → MLPParams α)
    (lossFn : List (List α) → List ℕ → List α)
    (hloss : ∀ o l, ∀ v ∈ lossFn o l, 0 ≤ v) :
    ∀ (batches : List (Batch α)) (p : MLPParams α),
      0 ≤ epochLoss gradFn lossFn p batches := by
  intro batches
  induction batches with
  | nil => intro p; exact le_refl 0
  | cons b bs ih =>
      intro p
      have h1 : 0 ≤ (lossFn (netBatch p (reshape784 b.imgs)) b.labels).sum :=
        List.sum_nonneg (hloss _ _)
      exact add_nonneg h1 (ih _)

theorem chunkList_flatten {γ : Type} (n : ℕ) (hn : 0 < n) (l : List γ) :
    (chunkList n l).flatten = l := by
  rw [chunkList]
  split_ifs with h
  · rcases h with h | h
    · omega
    · rw [List.isEmpty_iff] at h
      rw [h]
      rfl
  · have ih := chunkList_flatten n hn (l.drop n)
    simp only [List.flatten_cons, ih, List.take_append_drop]
termination_by l.length
decreasing_by
  simp only [List.length_drop]
  push_neg at h
  have hlen : 0 < l.length := by
    rcases l with _ | ⟨x, xs⟩
    · exact absurd rfl h.2
    · simp
  omega

theorem qE_pos (x : ℚ) : 0 < qE x := by
  rw [qE]
  split_ifs with h
  · linarith
  · have h1 : 0 < 1 - x := by linarith [lt_of_not_ge h]
    positivity

theorem qL_qE (x : ℚ) : qL (qE x) = x := by
  by_cases h : 0 ≤ x
  · rw [qE, if_pos h, qL, if_pos (by linarith : (1 : ℚ) ≤ x + 1)]
    ring
  · have hx : x < 0 := lt_of_not_ge h
    have h1 : 0 < 1 - x := by linarith
    rw [qE, if_neg h, qL, if_neg]
    · rw [one_div_one_div]
      ring
    · have h2 : 1 < 1 - x := by linarith
      have h3 : 1 / (1 - x) < 1 := (div_lt_one h1).mpr h2
      linarith

theorem qL_mono (a b : ℚ) (ha : 0 < a) (hab : a ≤ b) : qL a ≤ qL b := by
  rw [qL, qL]
  split_ifs with h1 h2 h2
  · linarith
  · linarith
  · have h3 : 1 ≤ 1 / a := one_le_one_div ha (by linarith [lt_of_not_ge h1])
    linarith
  · have h3 : 1 / b ≤ 1 / a := one_div_le_one_div_of_le ha hab
    linarith

end AccuracyLemmas

section MoreClaims

variable {α : Type} [LinearOrderedField α]

/-- C3: the training loop runs exactly `epochs = 10` epochs (one console
record each); within an epoch it folds over all training batches, and each
batch contributes, in order: the forward output of the batch reshaped to
`(-1, 784)` at the pre-step parameters, the per-sample losses of that
output, the gradients from automatic differentiation, and exactly one SGD
step with learning rate `0.01` rescaled by the batch size; the epoch's
cumulative loss is the sum over batches of the summed per-sample losses. -/
theorem training_loop_structure :
    epochs = 10 ∧
    (∀ (gradFn : MLPParams α → List (List α) → List ℕ → MLPParams α)
       (lossFn : List (List α) → List ℕ → List α)
       (s : TrainState α) (b : Batch α),
        stepBatch gradFn lossFn s b =
          ⟨sgdStep learning_rate (reshape784 b.imgs).length s.params
             (gradFn s.params (reshape784 b.imgs) b.labels),
           s.cumLoss + (lossFn (netBatch s.params (reshape784 b.imgs)) b.labels).sum⟩) ∧
    (∀ (gradFn : MLPParams α → List (List α) → List ℕ → MLPParams α)
       (lossFn : List (List α) → List ℕ → List α)
       (p : MLPParams α) (batches : List (Batch α)),
        trainEpoch gradFn lossFn p batches =
          ⟨epochParams gradFn p batches, epochLoss gradFn lossFn p batches⟩) ∧
    (∀ (gradFn : MLPParams α → List (List α) → List ℕ → MLPParams α)
       (lossFn : List (List α) → List ℕ → List α)
       (trainBatches testBatches : List (Batch α)) (p0 : MLPParams α),
        (trainLoop gradFn lossFn trainBatches testBatches p0).logs.length = epochs) := by
  refine ⟨rfl, fun _ _ _ _ => rfl, fun g f p bs => trainEpoch_spec g f p bs, ?_⟩
  intro g f tr te p0
  rw [trainLoop, trainLoop_aux]
  simp

/-- C4: after each epoch `e` the loop records exactly one console line
consisting of the epoch number, the epoch's accumulated loss divided by
`num_examples`, the training-set accuracy and the test-set accuracy of the
post-epoch parameters, both computed by `evaluate_accuracy`
(argmax-comparing predictions to labels over every batch of the
respective full dataset). -/
theorem per_epoch_reporting
    (gradFn : MLPParams α → List (List α) → List ℕ → MLPParams α)
    (lossFn : List (List α) → List ℕ → List α)
    (trainBatches testBatches : List (Batch α)) (p0 : MLPParams α) :
    (trainLoop gradFn lossFn trainBatches testBatches p0).logs =
      (List.range epochs).map fun e =>
        (e,
         epochLoss gradFn lossFn (iterEpochParams gradFn trainBatches p0 e)
             trainBatches / (num_examples : α),
         evaluate_accuracy trainBatches (iterEpochParams gradFn trainBatches p0 (e + 1)),
         evaluate_accuracy testBatches (iterEpochParams gradFn trainBatches p0 (e + 1))) := by
  rw [trainLoop, trainLoop_aux]
  rfl

/-- C5: for every data iterator over labelled batches and every parameter
assignment, the value returned by `evaluate_accuracy` lies in `[0, 1]`
(under the convention that the empty iterator's `0 / 0` is `0`). -/
theorem evaluate_accuracy_bounds (batches : List (Batch α)) (p : MLPParams α) :
    0 ≤ evaluate_accuracy batches p ∧ evaluate_accuracy batches p ≤ 1 := by
  have hle := evalFold_le p batches
  constructor
  · exact div_nonneg (Nat.cast_nonneg _) (Nat.cast_nonneg _)
  · rcases Nat.eq_zero_or_pos (evalFold p batches).numInst with h0 | h0
    · rw [evaluate_accuracy, h0]
      simp
    · rw [evaluate_accuracy, div_le_one (by exact_mod_cast h0)]
      exact_mod_cast hle

/-- C6: for every logarithm-like and exponential-like kernel pair (the
exponential positive, the logarithm its left inverse and monotone on
positives) and every output row with an in-range label, the softmax
cross-entropy loss is non-negative; and whenever the per-sample losses of
the loss kernel are non-negative, the cumulative loss accumulated over an
epoch of the training loop is non-negative as well. -/
theorem softmax_loss_nonneg (E L : α → α)
    (hE : ∀ x, 0 < E x)
    (hLE : ∀ x, L (E x) = x)
    (hL : ∀ a b, 0 < a → a ≤ b → L a ≤ L b)
    (out : List α) (label : ℕ) (hlab : label < out.length)
    (gradFn : MLPParams α → List (List α) → List ℕ → MLPParams α)
    (lossFn : List (List α) → List ℕ → List α)
    (p : MLPParams α) (batches : List (Batch α))
    (hloss : ∀ o l, ∀ v ∈ lossFn o l, 0 ≤ v) :
    0 ≤ softmax_cross_entropy E L out label ∧
      0 ≤ (trainEpoch gradFn lossFn p batches).cumLoss := by
  constructor
  · have hx : out.getD label 0 ∈ out := by
      rw [List.getD_eq_getElem out 0 hlab]
      exact List.getElem_mem hlab
    have hmem : E (out.getD label 0) ∈ out.map E := List.mem_map_of_mem E hx
    have hpos : ∀ y ∈ out.map E, 0 ≤ y := by
      intro y hy
      rcases List.mem_map.mp hy with ⟨z, _, rfl⟩
      exact (hE z).le
    have hsum : E (out.getD label 0) ≤ (out.map E).sum :=
      List.single_le_sum hpos _ hmem
    have hmono := hL (E (out.getD label 0)) ((out.map E).sum)
      (hE (out.getD label 0)) hsum
    rw [hLE] at hmono
    rw [softmax_cross_entropy]
    linarith
  · rw [trainEpoch_spec]
    exact epochLoss_nonneg gradFn lossFn hloss batches p

theorem softmax_loss_nonneg_witness :
    0 ≤ softmax_cross_entropy qE qL [0, 1] 0 ∧
      0 ≤ (trainEpoch (fun p _ _ => p) (fun _ _ => ([] : List ℚ))
            emptyParams []).cumLoss :=
  softmax_loss_nonneg qE qL qE_pos qL_qE qL_mono [0, 1] 0 (by decide)
    (fun p _ _ => p) (fun _ _ => ([] : List ℚ)) emptyParams []
    (fun o l v hv => absurd hv (List.not_mem_nil v))

/-- C7: parameter drawing is a deterministic function of the random seed:
two runs of `initParams` from equal seeds produce identical weight
matrices and bias vectors. -/
theorem init_deterministic (sigma : ℚ) (s1 s2 : ℕ) (h : s1 = s2) :
    initParams sigma s1 = initParams sigma s2 := by rw [h]

theorem init_deterministic_witness :
    initParams (1 / 10) 42 = initParams (1 / 10) 42 :=
  init_deterministic (1 / 10) 42 42 rfl

/-- C8, counterexample: it is false that both data loaders of the notebook
shuffle; the test loader is constructed with `shuffle=False`. -/
theorem all_loaders_shuffled_false :
    ¬ (train_data.shuffle = true ∧ test_data.shuffle = true) := by decide

/-- C8, amended: the training loader is constructed with `shuffle=True`
and shuffles its samples; the test loader is constructed with
`shuffle=False` and yields its samples in dataset order (the concatenation
of its batches is the dataset itself). -/
theorem loader_shuffle_flags :
    train_data.shuffle = true ∧ test_data.shuffle = false ∧
      ∀ (γ : Type) (shuffleFn : List γ → List γ) (data : List γ),
        (loaderBatches test_data shuffleFn data).flatten = data := by
  refine ⟨rfl, rfl, ?_⟩
  intro γ sf data
  exact chunkList_flatten 64 (by norm_num) data

/-- C9: the model parameters are mutated only by the optimizer step: the
parameter component of the full loop (which also evaluates accuracies and
records console output) is exactly the iterate of the per-epoch SGD folds,
each epoch of which is exactly one SGD step per batch; in particular
`evaluate_accuracy` and the logging leave the parameters unchanged. -/
theorem params_only_updated_by_sgd
    (gradFn : MLPParams α → List (List α) → List ℕ → MLPParams α)
    (lossFn : List (List α) → List ℕ → List α)
    (trainBatches testBatches : List (Batch α)) (p0 : MLPParams α) :
    (trainLoop gradFn lossFn trainBatches testBatches p0).params =
        iterEpochParams gradFn trainBatches p0 epochs ∧
      (∀ k, iterEpochParams gradFn trainBatches p0 (k + 1) =
          (trainEpoch gradFn lossFn
            (iterEpochParams gradFn trainBatches p0 k) trainBatches).params) ∧
      (∀ (s : LoopState α) (e : ℕ),
        (runEpoch gradFn lossFn trainBatches testBatches s e).params =
          (trainEpoch gradFn lossFn s.params trainBatches).params) := by
  refine ⟨?_, ?_, ?_⟩
  · rw [trainLoop, trainLoop_aux]
  · intro k
    rw [trainEpoch_spec]
    rfl
  · intro s e
    rw [runEpoch_spec, trainEpoch_spec]

/-- C10: `transform` maps every image whose raw pixels are integers in
`[0, 255]` to the pixel values divided by `255`, all lying in `[0, 1]`,
together with the label cast to the scalar field. -/
theorem transform_scales (data : List ℕ) (label : ℕ)
    (h : ∀ v ∈ data, v ≤ 255) :
    (∀ y ∈ (transform data label : List α × α).1, 0 ≤ y ∧ y ≤ 1) ∧
      (transform data label : List α × α).2 = (label : α) := by
  constructor
  · intro y hy
    rcases List.mem_map.mp
        (show y ∈ List.map (fun v : ℕ => (v : α) / 255) data from hy) with ⟨v, hv, rfl⟩
    refine ⟨div_nonneg (Nat.cast_nonneg v) (by norm_num), ?_⟩
    rw [div_le_one (by norm_num : (0 : α) < 255)]
    exact_mod_cast h v hv
  · rfl

theorem transform_scales_witness :
    (∀ y ∈ (transform [0, 128, 255] 7 : List ℚ × ℚ).1, 0 ≤ y ∧ y ≤ 1) ∧
      (transform [0, 128, 255] 7 : List ℚ × ℚ).2 = ((7 : ℕ) : ℚ) :=
  transform_scales [0, 128, 255] 7 (by decide)

end MoreClaims
